import Mathlib

/-!
Verification of the sprite-sheet pipeline (frame reduction, atlas building,
palette optimization) against its natural-language specification.

Modelling conventions:
* Python lists of PIL frames become Lean `List`s; indexing `frames[i]` becomes
  `List.getD` (every access is in range on the reachable paths, so the default
  is never read).
* Python `int` arithmetic is `ℤ` (`Int.fdiv` for Python's flooring `//` where
  the divisor may be negative); Python `float` arithmetic is modelled exactly
  in `ℚ` (real-arithmetic semantics), and `int(...)` of a non-negative value
  is the floor, which on the products involved is `ℕ`-division.
* A raised exception becomes `Except.error` carrying the exception's message;
  Python's `try`/`except` becomes a `match` on the `Except` value.
* The two uses of seeded pseudo-randomness (`random.sample` for pixel
  sub-sampling and `np.random.choice` for the k-means seeds) are the only
  unembeddable primitives; they are passed in as function parameters `samp`
  and `init`, and theorems assume only the properties the library guarantees
  (the sample has the requested length and is drawn from the population).
  `np.random.choice(n, k, replace=False)` raising `ValueError` when `k > n`
  is deterministic documented behaviour and is modelled directly.
-/

/-- An RGBA pixel value, one natural number per channel. -/
abbrev RGBA : Type := ℕ × ℕ × ℕ × ℕ

/-- An RGBA pixel with rational channels (NumPy float arithmetic, modelled exactly). -/
abbrev QRGBA : Type := ℚ × ℚ × ℚ × ℚ

/-- A decoded frame: a 2-D RGBA pixel grid with its dimensions
(`PIL.Image`: `size = (width, height)`). -/
structure Frame where
  width : ℕ
  height : ℕ
  pixel : ℕ → ℕ → RGBA

/-- Python's slice `l[:k]` for an `int` bound `k`: a negative bound counts
from the end (`stop = max(0, len + k)`). -/
def pySliceTo {α : Type} (l : List α) (k : ℤ) : List α :=
  if k < 0 then l.take (l.length - (-k).toNat) else l.take k.toNat

namespace FrameReducer

/-- The keys of the `self.strategies` dictionary of `FrameReducer.__init__`. -/
def strategyNames : List String := ["keep_ends", "uniform", "smart", "every_nth"]

/-- `FrameReducer._reduce_keep_ends`: keep the first and last frame, and fill
the `target_count - 2` middle slots at stride `(len - 2) / (target_count - 2)`
(a Python float; `int(i * step)` is the floor, i.e. `i * (len - 2) / remaining`
in `ℕ`-division). Middle indices reaching `len - 1` are skipped. -/
def reduce_keep_ends {α : Type} [Inhabited α] (frames : List α) (target_count : ℤ) : List α :=
  if target_count < 2 then pySliceTo frames target_count
  else
    let L := frames.length
    let remaining := (target_count - 2).toNat
    let middle := (List.range' 1 remaining).filterMap (fun i =>
      let frame_index := i * (L - 2) / remaining
      if frame_index < L - 1 then some (frames.getD frame_index default) else none)
    (frames.getD 0 default :: middle) ++ [frames.getD (L - 1) default]

/-- `FrameReducer._reduce_uniform`: output slot `i` is `frames[int(i * len/target)]`
for `i < target_count`; `len(frames) / target_count` is a Python float, so for a
zero target the division raises `ZeroDivisionError`. -/
def reduce_uniform {α : Type} [Inhabited α] (frames : List α) (target_count : ℤ) :
    Except String (List α) :=
  if (frames.length : ℤ) ≤ target_count then .ok frames
  else if target_count = 0 then .error "ZeroDivisionError: division by zero"
  else
    .ok ((List.range target_count.toNat).filterMap (fun i =>
      let frame_index := i * frames.length / target_count.toNat
      if frame_index < frames.length then some (frames.getD frame_index default) else none))

/-- `FrameReducer._reduce_smart`: currently delegates to `_reduce_keep_ends`. -/
def reduce_smart {α : Type} [Inhabited α] (frames : List α) (target_count : ℤ) : List α :=
  if (frames.length : ℤ) ≤ target_count then frames
  else reduce_keep_ends frames target_count

/-- `FrameReducer._reduce_every_nth`: `nth = len(frames) // target_count`
(Python flooring division, raising `ZeroDivisionError` on a zero target),
clamped up to 1; then every `nth`-th frame is collected until `target_count`
frames are taken (the loop `for i in range(0, len, nth)` visits
`⌈len / nth⌉` indices and stops once the target is reached). -/
def reduce_every_nth {α : Type} [Inhabited α] (frames : List α) (target_count : ℤ) :
    Except String (List α) :=
  if (frames.length : ℤ) ≤ target_count then .ok frames
  else if target_count = 0 then .error "ZeroDivisionError: integer division or modulo by zero"
  else
    let nth := (max 1 (Int.fdiv (frames.length : ℤ) target_count)).toNat
    .ok (((List.range ((frames.length + nth - 1) / nth)).map
      (fun j => frames.getD (j * nth) default)).take target_count.toNat)

/-- `FrameReducer.reduce_frames`: the short-circuit `len(frames) <= target_count`
returns a copy of the input first; only then is the strategy name looked up in
`self.strategies`, an unknown name raising `ValueError`. -/
def reduce_frames {α : Type} [Inhabited α] (frames : List α) (target_count : ℤ)
    (strategy : String) : Except String (List α) :=
  if (frames.length : ℤ) ≤ target_count then .ok frames
  else if strategy ∉ strategyNames then .error ("Unknown strategy: " ++ strategy)
  else if strategy = "keep_ends" then .ok (reduce_keep_ends frames target_count)
  else if strategy = "uniform" then reduce_uniform frames target_count
  else if strategy = "smart" then .ok (reduce_smart frames target_count)
  else reduce_every_nth frames target_count

/-- One window of `remove_every`: keep the first `r` entries, drop the next one,
recurse on the rest. -/
def removeEveryGo {α : Type} (r : ℕ) : List α → List α
  | [] => []
  | a :: l => (a :: l).take r ++ removeEveryGo r ((a :: l).drop (r + 1))
termination_by l => l.length
decreasing_by simp; omega

/-- Modelled from the spec: `FrameReducer.remove_every(frames, keep_r)`. The
method is invoked by the application layer (`eel_app.generate_sprite_sheet`)
but its definition is absent from the repository's sources; the spec describes
it as keeping `keep_r` frames then dropping one in a repeating window
("keep r, drop 1"), a no-op when `keep_r == 0`. -/
def remove_every {α : Type} (frames : List α) (keep_r : ℕ) : List α :=
  if keep_r = 0 then frames else removeEveryGo keep_r frames

/-- The spec's positional description of `remove_every`, generalized to an
enumeration starting at `k`: the entries at positions `p` with
`p % (keep_r + 1) ≠ keep_r`, in order. -/
def keepByPositionFrom {α : Type} (r k : ℕ) (l : List α) : List α :=
  ((List.enumFrom k l).filter (fun p => decide (¬ p.1 % (r + 1) = r))).map Prod.snd

/-- The spec's positional description of `remove_every`: exactly the frames at
positions `p` with `p % (keep_r + 1) ≠ keep_r`, in order. -/
def keepByPosition {α : Type} (r : ℕ) (frames : List α) : List α :=
  ((frames.enum.filter (fun p => decide (¬ p.1 % (r + 1) = r))).map Prod.snd)

end FrameReducer

namespace VRChatSpriteGenerator

/-- `SPRITE_SHEET_SIZE` from `sprite_generator.py`. -/
def SPRITE_SHEET_SIZE : ℕ × ℕ := (1024, 1024)

/-- `GRID_LAYOUTS` + `determine_grid_layout` from `sprite_generator.py`:
`(grid_width, grid_height, frame_size)` as a pure function of the frame count. -/
def determine_grid_layout (frame_count : ℤ) : ℤ × ℤ × ℤ :=
  if frame_count ≤ 4 then (2, 2, 512)
  else if frame_count ≤ 16 then (4, 4, 256)
  else (8, 8, 128)

/-- `validate_frame_count` from `sprite_generator.py`: `1 <= frame_count <= 64`. -/
def validate_frame_count (frame_count : ℤ) : Bool :=
  1 ≤ frame_count ∧ frame_count ≤ 64

/-- The new size `_resize_frame` computes: `frame_ratio = w / h` is compared to
`target_ratio = tw / th` (both Python floats, exact here: `w * th > tw * h`);
the wider side is set to the target and the other side floored
(`int(target / ratio)` and `int(target * ratio)`). -/
def resizeDims (w h tw th : ℕ) : ℕ × ℕ :=
  if w * th > tw * h then (tw, tw * h / w) else (th * w / h, th)

/-- The new size the spec's words prescribe: scale by
`min(1, cell_w/src_w, cell_h/src_h)` — only ever downscale or keep size. -/
def specResizeDims (w h tw th : ℕ) : ℕ × ℕ :=
  let scale : ℚ := min 1 (min ((tw : ℚ) / (w : ℚ)) ((th : ℚ) / (h : ℚ)))
  (⌊(w : ℚ) * scale⌋₊, ⌊(h : ℚ) * scale⌋₊)

/-- `VRChatSpriteGenerator._resize_frame`: computing `frame_ratio = w / h`
raises `ZeroDivisionError` on a zero-height frame (and `target_ratio = tw / th`
likewise for a zero-height target). Otherwise the frame content is resampled
(LANCZOS, abstracted as `resample src new_w new_h x y`) to the computed size
and pasted centered at `((tw - new_w) // 2, (th - new_h) // 2)` onto a fully
transparent `(tw, th)` canvas. -/
def resize_frame (resample : Frame → ℕ → ℕ → ℕ → ℕ → RGBA) (frame : Frame)
    (tw th : ℕ) : Except String Frame :=
  if frame.height = 0 ∨ th = 0 then .error "ZeroDivisionError: division by zero"
  else
    let nw := (resizeDims frame.width frame.height tw th).1
    let nh := (resizeDims frame.width frame.height tw th).2
    let x_offset := (tw - nw) / 2
    let y_offset := (th - nh) / 2
    .ok { width := tw, height := th,
          pixel := fun x y =>
            if x_offset ≤ x ∧ x < x_offset + nw ∧ y_offset ≤ y ∧ y < y_offset + nh
            then resample frame nw nh (x - x_offset) (y - y_offset)
            else (0, 0, 0, 0) }

/-- `Image.paste(src, (x0, y0), mask=src)` at a pixel: `blend` abstracts PIL's
masked compositing of a source pixel over a destination pixel; outside the
pasted rectangle the destination is unchanged, and the destination's
dimensions are unchanged. -/
def pasteMasked (blend : RGBA → RGBA → RGBA) (dst src : Frame) (x0 y0 : ℕ) : Frame :=
  { width := dst.width, height := dst.height,
    pixel := fun x y =>
      if x0 ≤ x ∧ x < x0 + src.width ∧ y0 ≤ y ∧ y < y0 + src.height
      then blend (src.pixel (x - x0) (y - y0)) (dst.pixel x y)
      else dst.pixel x y }

/-- The transparent 1024x1024 RGBA canvas `Image.new('RGBA', SPRITE_SHEET_SIZE, (0,0,0,0))`. -/
def blankSheet : Frame :=
  { width := SPRITE_SHEET_SIZE.1, height := SPRITE_SHEET_SIZE.2, pixel := fun _ _ => (0, 0, 0, 0) }

/-- A default frame for `List.getD`; every access is in range, so it is never read. -/
def defaultFrame : Frame := { width := 0, height := 0, pixel := fun _ _ => (0, 0, 0, 0) }

/-- `VRChatSpriteGenerator.create_sprite_sheet`: raises on an empty frame list;
otherwise clamps `frame_count` (defaulted to `len(frames)`) to `len(frames)`,
picks the grid layout, and pastes each resized frame at
`(col * frame_size, row * frame_size)` in row-major order. -/
def create_sprite_sheet (resample : Frame → ℕ → ℕ → ℕ → ℕ → RGBA)
    (blend : RGBA → RGBA → RGBA) (frames : List Frame) (frame_count : Option ℤ) :
    Except String Frame :=
  if frames.isEmpty then .error "No frames provided"
  else
    let fc : ℤ := min (frame_count.getD (frames.length : ℤ)) (frames.length : ℤ)
    let layout := determine_grid_layout fc
    let grid_width := layout.1.toNat
    let frame_size := layout.2.2.toNat
    (List.range fc.toNat).foldlM (fun sheet i =>
      (resize_frame resample (frames.getD i defaultFrame) frame_size frame_size).map
        (fun resized =>
          pasteMasked blend sheet resized ((i % grid_width) * frame_size)
            ((i / grid_width) * frame_size)))
      blankSheet

end VRChatSpriteGenerator

namespace ColorOptimizer

/-- The unique-color count `analyze_colors` reports over a list of frames,
each frame a flat RGBA pixel buffer. -/
def uniqueColorCount (frames : List (List RGBA)) : ℕ :=
  (frames.flatten).dedup.length

/-- `analysis['all_colors']`: the distinct colors in first-seen order
(`Counter` preserves insertion order). -/
def allColors (frames : List (List RGBA)) : List RGBA :=
  (frames.flatten).dedup

/-- Per-frame pixel collection with sub-sampling: when a frame holds more than
`cap` pixels, `random.sample(pixels, cap)` (seed 42) replaces them; `samp`
abstracts that draw. -/
def samplePixels (samp : ℕ → List RGBA → List RGBA) (cap : ℕ) (pixels : List RGBA) :
    List RGBA :=
  if cap < pixels.length then samp cap pixels else pixels

/-- An RGBA pixel as the float vector NumPy works with. -/
def toQ (p : RGBA) : QRGBA := ((p.1 : ℚ), (p.2.1 : ℚ), (p.2.2.1 : ℚ), (p.2.2.2 : ℚ))

/-- Squared Euclidean distance over all four channels (the k-means assignment
distance; the `np.sqrt` the code takes is monotone, so argmins agree). -/
def dist4Sq (p q : QRGBA) : ℚ :=
  (p.1 - q.1) ^ 2 + (p.2.1 - q.2.1) ^ 2 + (p.2.2.1 - q.2.2.1) ^ 2 + (p.2.2.2 - q.2.2.2) ^ 2

/-- Squared Euclidean distance over the RGB channels only (the `apply_palette`
matching distance; alpha is ignored). -/
def dist3Sq (p q : RGBA) : ℚ :=
  ((p.1 : ℚ) - (q.1 : ℚ)) ^ 2 + ((p.2.1 : ℚ) - (q.2.1 : ℚ)) ^ 2
    + ((p.2.2.1 : ℚ) - (q.2.2.1 : ℚ)) ^ 2

/-- The minimum of `f` over a list (`0` on the empty list, which the code
never queries). -/
def minVal {α : Type} (f : α → ℚ) : List α → ℚ
  | [] => 0
  | [a] => f a
  | a :: b :: l => min (f a) (minVal f (b :: l))

/-- `np.argmin` over `f`: the index of the first occurrence of the minimum. -/
def argminIdx {α : Type} (f : α → ℚ) : List α → ℕ
  | [] => 0
  | [_] => 0
  | a :: b :: l => if f a ≤ minVal f (b :: l) then 0 else argminIdx f (b :: l) + 1

/-- The final `astype(np.uint8)` on one channel. -/
def toUint8 (n : ℕ) : ℕ := n % 256

/-- The final `astype(np.uint8)` on a pixel. -/
def toUint8RGBA (p : RGBA) : RGBA := (toUint8 p.1, toUint8 p.2.1, toUint8 p.2.2.1, toUint8 p.2.2.2)

/-- `ColorOptimizer.apply_palette`: every pixel is replaced by the palette
entry of minimal RGB distance (`np.argmin`, first occurrence on ties), and the
result is cast back to `uint8`. `np.argmin` over an empty palette raises. -/
def apply_palette (image : List RGBA) (palette : List RGBA) : Except String (List RGBA) :=
  if palette = [] ∧ image ≠ [] then .error "attempt to get argmin of an empty sequence"
  else
    .ok (image.map (fun p =>
      toUint8RGBA (palette.getD (argminIdx (dist3Sq p) palette) (0, 0, 0, 255))))

/-- Per-channel mean of a list of float pixels (`np.mean(..., axis=0)`). -/
def meanQ (l : List QRGBA) : QRGBA :=
  (((l.map (·.1)).sum) / l.length, ((l.map (·.2.1)).sum) / l.length,
   ((l.map (·.2.2.1)).sum) / l.length, ((l.map (·.2.2.2)).sum) / l.length)

/-- One k-means update: each pixel goes to its nearest centroid; a centroid
with at least one assigned pixel moves to their mean, otherwise it is kept. -/
def kmeansStep (pixels : List QRGBA) (cs : List QRGBA) : List QRGBA :=
  (List.range cs.length).map (fun i =>
    let assigned := pixels.filter (fun p => argminIdx (dist4Sq p) cs = i)
    if 0 < assigned.length then meanQ assigned else cs.getD i (0, 0, 0, 0))

/-- `np.max(np.abs(new - old))` over the centroid matrices (both nonempty with
equal shape whenever the code evaluates it, so the `0` base is inert). -/
def maxAbsDiff (old new : List QRGBA) : ℚ :=
  ((old.zip new).map (fun pc =>
    max (max |pc.1.1 - pc.2.1| |pc.1.2.1 - pc.2.2.1|)
        (max |pc.1.2.2.1 - pc.2.2.2.1| |pc.1.2.2.2 - pc.2.2.2.2|))).foldr max 0

/-- The `for iteration in range(max_iterations)` k-means loop, `fuel` the
remaining iterations (50 at the top). Assigning against an empty centroid list
raises (caught by the surrounding `try`); on convergence
(`np.max(np.abs(new - old)) < 1e-3`) the loop breaks, keeping the previous
centroids. -/
def kmeansLoop (pixels : List QRGBA) : ℕ → List QRGBA → Except String (List QRGBA)
  | 0, cs => .ok cs
  | fuel + 1, cs =>
    if cs = [] then .error "attempt to get argmin of an empty sequence"
    else
      let cs2 := kmeansStep pixels cs
      if maxAbsDiff cs cs2 < 1 / 1000 then .ok cs
      else kmeansLoop pixels fuel cs2

/-- Python's `round` on a float: round half to even; `int(round(c))` of a
non-negative channel is its `toNat`. -/
def pyRound (q : ℚ) : ℤ :=
  if q - ⌊q⌋ < 1 / 2 then ⌊q⌋
  else if 1 / 2 < q - ⌊q⌋ then ⌊q⌋ + 1
  else if 2 ∣ ⌊q⌋ then ⌊q⌋ else ⌊q⌋ + 1

/-- `tuple(int(round(c)) for c in centroid)`. -/
def roundRGBA (c : QRGBA) : RGBA :=
  ((pyRound c.1).toNat, (pyRound c.2.1).toNat, (pyRound c.2.2.1).toNat, (pyRound c.2.2.2).toNat)

/-- `ColorOptimizer._simple_color_sampling`, the fallback: distinct sampled
colors (Python's `set`, modelled in first-seen order), every
`len(colors) // k`-th entry when more than `k` remain; `k = 0` then divides by
zero, and that error is not caught anywhere. -/
def simple_color_sampling (samp : ℕ → List RGBA → List RGBA)
    (frames : List (List RGBA)) (k : ℕ) : Except String (List RGBA) :=
  let color_list := ((frames.map (samplePixels samp 5000)).flatten).dedup
  if color_list = [] then .ok [(0, 0, 0, 255)]
  else if color_list.length ≤ k then .ok color_list
  else if k = 0 then .error "ZeroDivisionError: integer division or modulo by zero"
  else
    let step := color_list.length / k
    .ok ((List.range k).filterMap (fun i =>
      if i * step < color_list.length then some (color_list.getD (i * step) (0, 0, 0, 255))
      else none))

/-- `ColorOptimizer._kmeans_clustering`: collect (sub-sampled) pixels; an empty
collection short-circuits to a black palette; `np.random.choice(n, k,
replace=False)` raises `ValueError` when `k > n` — this happens before the
`try`, so it is never caught; otherwise the 50-round loop runs inside `try`,
any failure there falling back to `_simple_color_sampling`, and on success the
centroids are rounded to integer RGBA entries. -/
def kmeans_clustering (samp : ℕ → List RGBA → List RGBA)
    (init : List RGBA → ℕ → List RGBA) (frames : List (List RGBA)) (k : ℕ) :
    Except String (List RGBA) :=
  let all_pixels := (frames.map (samplePixels samp 10000)).flatten
  if all_pixels = [] then .ok [(0, 0, 0, 255)]
  else if all_pixels.length < k then
    .error "ValueError: Cannot take a larger sample than population when replace is False"
  else
    match kmeansLoop (all_pixels.map toQ) 50 ((init all_pixels k).map toQ) with
    | .ok cs => .ok (cs.map roundRGBA)
    | .error _ => simple_color_sampling samp frames k

/-- `ColorOptimizer.create_optimized_palette`: the distinct colors verbatim
when already within target, else k-means. -/
def create_optimized_palette (samp : ℕ → List RGBA → List RGBA)
    (init : List RGBA → ℕ → List RGBA) (frames : List (List RGBA)) (target_colors : ℕ) :
    Except String (List RGBA) :=
  if uniqueColorCount frames ≤ target_colors then .ok (allColors frames)
  else kmeans_clustering samp init frames target_colors

/-- `ColorOptimizer.optimize_sprite_sheet`: return the sheet unchanged when its
unique-color count is within target, else build a palette from the sheet
itself and apply it. -/
def optimize_sprite_sheet (samp : ℕ → List RGBA → List RGBA)
    (init : List RGBA → ℕ → List RGBA) (sprite_sheet : List RGBA) (target_colors : ℕ) :
    Except String (List RGBA) :=
  if uniqueColorCount [sprite_sheet] ≤ target_colors then .ok sprite_sheet
  else
    match create_optimized_palette samp init [sprite_sheet] target_colors with
    | .ok palette => apply_palette sprite_sheet palette
    | .error e => .error e

end ColorOptimizer

/-- An 8-bit pixel: every channel at most 255 (what `getdata()` yields). -/
def chan255 (p : RGBA) : Prop :=
  p.1 ≤ 255 ∧ p.2.1 ≤ 255 ∧ p.2.2.1 ≤ 255 ∧ p.2.2.2 ≤ 255

/-- A float pixel with every channel in `[0, 255]`. -/
def qchan255 (c : QRGBA) : Prop :=
  (0 ≤ c.1 ∧ c.1 ≤ 255) ∧ (0 ≤ c.2.1 ∧ c.2.1 ≤ 255) ∧
  (0 ≤ c.2.2.1 ∧ c.2.2.1 ≤ 255) ∧ (0 ≤ c.2.2.2 ∧ c.2.2.2 ≤ 255)

/-! ### Concrete instances used to evaluate the model at specific inputs -/

/-- A constant resampler standing in for LANCZOS content in concrete runs. -/
def constResample : Frame → ℕ → ℕ → ℕ → ℕ → RGBA := fun _ _ _ _ _ => (9, 9, 9, 9)

/-- A constant blend standing in for PIL's masked compositing in concrete runs. -/
def constBlend : RGBA → RGBA → RGBA := fun src _ => src

/-- A concrete 10x4 frame. -/
def frame10x4 : Frame := { width := 10, height := 4, pixel := fun _ _ => (1, 2, 3, 4) }

/-- A concrete 5x0 frame (PIL images can have a zero dimension). -/
def frame5x0 : Frame := { width := 5, height := 0, pixel := fun _ _ => (1, 2, 3, 4) }

/-- A deterministic instance of `random.sample(population, n)`: the first `n`
entries.  It satisfies everything the library guarantees (`n` elements, each
drawn from the population) for `n ≤ len(population)`. -/
def sampTake : ℕ → List RGBA → List RGBA := fun n l => l.take n

/-- A deterministic instance of indexing by `np.random.choice(len(l), k,
replace=False)`: the first `k` entries (`k` pixels drawn from the list). -/
def initTake : List RGBA → ℕ → List RGBA := fun l k => l.take k

/-- A 110x110-pixel image with 12100 distinct colors, flattened. -/
def bigImage : List RGBA := (List.range 12100).map (fun i => (i / 256, i % 256, 0, 255))

open FrameReducer VRChatSpriteGenerator ColorOptimizer

/-! ### Generic list helpers -/

lemma filterMap_all_some {α β : Type} (f : α → β) (l : List α) :
    (l.filterMap (fun a => some (f a))) = l.map f := by
  induction l with
  | nil => rfl
  | cons a t ih => simp [List.filterMap_cons, ih]

lemma head?_eq_getD {α : Type} [Inhabited α] (l : List α) (h : l ≠ []) :
    l.head? = some (l.getD 0 default) := by
  cases l with
  | nil => exact absurd rfl h
  | cons a t => rfl

lemma getLast?_eq_getD {α : Type} [Inhabited α] (l : List α) (h : l ≠ []) :
    l.getLast? = some (l.getD (l.length - 1) default) := by
  rw [List.getLast?_eq_getElem? l]
  have hlen : l.length - 1 < l.length := by
    cases l with
    | nil => exact absurd rfl h
    | cons a t => simp
  rw [List.getElem?_eq_getElem hlen, List.getD_eq_getElem l default hlen]

/-! ### Claim C6: the grid-layout lookup -/

/-- Claim C6: the grid-layout lookup is a pure function of the requested frame
count, partitioned exactly at the boundaries 4, 16 and 64:
`determine_grid_layout` maps 4 to (2,2,512), 5 and 16 to (4,4,256), and 17 and
64 to (8,8,128). -/
theorem grid_layout_partition :
    determine_grid_layout 4 = (2, 2, 512) ∧
    determine_grid_layout 5 = (4, 4, 256) ∧
    determine_grid_layout 16 = (4, 4, 256) ∧
    determine_grid_layout 17 = (8, 8, 128) ∧
    determine_grid_layout 64 = (8, 8, 128) := by
  decide

/-! ### Claim C3: unknown strategy names -/

/-- Claim C3 counterexample: with a one-frame list and `target_count = 1`, the
length short-circuit fires first, so an unknown strategy name is returned a
copy of the input instead of raising `ValueError`. -/
theorem unknown_strategy_not_rejected_when_short :
    "bogus" ∉ strategyNames ∧
    reduce_frames ([0] : List ℕ) 1 "bogus" = .ok [0] := by
  exact ⟨by decide, rfl⟩

/-- Claim C3 (amended): calling `reduce_frames` with a strategy name outside
the closed set raises `ValueError` exactly when `len(frames) > target_count`;
when `len(frames) <= target_count` the length short-circuit runs first and a
copy of the input is returned, the strategy name never being inspected. -/
theorem unknown_strategy_rejection (frames : List ℕ) (target_count : ℤ)
    (strategy : String) (h : strategy ∉ strategyNames) :
    ((frames.length : ℤ) ≤ target_count →
      reduce_frames frames target_count strategy = .ok frames) ∧
    (target_count < (frames.length : ℤ) →
      reduce_frames frames target_count strategy =
        .error ("Unknown strategy: " ++ strategy)) := by
  constructor
  · intro hlen
    simp [reduce_frames, hlen]
  · intro hlen
    rw [reduce_frames, if_neg (not_le.mpr hlen), if_pos h]

/-- Claim C3 witness: at `frames = [0, 1]`, `target_count = 1`, the unknown
strategy name "bogus" is rejected with `ValueError`. -/
theorem unknown_strategy_rejection_witness :
    reduce_frames ([0, 1] : List ℕ) 1 "bogus" = .error ("Unknown strategy: " ++ "bogus") :=
  (unknown_strategy_rejection [0, 1] 1 "bogus" (by decide)).2 (by decide)

/-! ### Claim C5: keep_ends preserves both ends -/

lemma filterMap_eq_map_of_forall {α β : Type} (f : α → Option β) (g : α → β)
    (l : List α) (h : ∀ a ∈ l, f a = some (g a)) : l.filterMap f = l.map g := by
  induction l with
  | nil => rfl
  | cons a t ih =>
    rw [List.filterMap_cons, h a (List.mem_cons_self a t), List.map_cons,
      ih (fun x hx => h x (List.mem_cons_of_mem a hx))]

lemma reduce_keep_ends_core {α : Type} [Inhabited α] (frames : List α) (T : ℕ)
    (h2 : 2 ≤ T) (hlt : T < frames.length) :
    reduce_keep_ends frames (T : ℤ) =
      (frames.getD 0 default ::
        (List.range' 1 (T - 2)).map
          (fun i => frames.getD (i * (frames.length - 2) / (T - 2)) default)) ++
      [frames.getD (frames.length - 1) default] := by
  have hc : ¬ ((T : ℤ) < 2) := by omega
  have hrem : ((T : ℤ) - 2).toNat = T - 2 := by omega
  simp only [reduce_keep_ends, if_neg hc, hrem]
  congr 2
  apply filterMap_eq_map_of_forall
  intro i hi
  rw [List.mem_range'_1] at hi
  have hfi : i * (frames.length - 2) / (T - 2) < frames.length - 1 := by
    have hb : i * (frames.length - 2) / (T - 2) ≤ frames.length - 2 := by
      rcases Nat.eq_zero_or_pos (T - 2) with h0 | hpos
      · omega
      · calc i * (frames.length - 2) / (T - 2)
            ≤ (T - 2) * (frames.length - 2) / (T - 2) :=
              Nat.div_le_div_right (Nat.mul_le_mul_right _ (by omega))
          _ = frames.length - 2 := Nat.mul_div_cancel_left _ hpos
    omega
  rw [if_pos hfi]

/-- Claim C5: for every frame list of length `L` and target `T` with
`2 ≤ T ≤ L`, `reduce_frames` with the `keep_ends` strategy succeeds with a
list of length exactly `T` whose first element is input frame 0 and whose last
element is input frame `L - 1`. -/
theorem keep_ends_preserves_ends {α : Type} [Inhabited α] (frames : List α)
    (T : ℕ) (h2 : 2 ≤ T) (hT : T ≤ frames.length) :
    ∃ res, reduce_frames frames (T : ℤ) "keep_ends" = .ok res ∧
      res.length = T ∧ res.head? = frames.head? ∧ res.getLast? = frames.getLast? := by
  have hne : frames ≠ [] := by
    intro h
    rw [h] at hT
    simp at hT
    omega
  by_cases hle : (frames.length : ℤ) ≤ (T : ℤ)
  · refine ⟨frames, ?_, ?_, rfl, rfl⟩
    · rw [reduce_frames, if_pos hle]
    · omega
  · have hlt : T < frames.length := by omega
    rw [reduce_frames, if_neg hle, if_neg (by decide), if_pos rfl,
      reduce_keep_ends_core frames T h2 hlt]
    refine ⟨_, rfl, ?_, ?_, ?_⟩
    · simp only [List.length_append, List.length_cons, List.length_map,
        List.length_range', List.length_nil]
      omega
    · rw [List.cons_append, List.head?_cons, head?_eq_getD frames hne]
    · rw [getLast?_eq_getD frames hne, List.getLast?_concat]

/-- Claim C5 witness: reducing five frames to `T = 3` with `keep_ends` keeps
both ends and returns exactly three frames. -/
theorem keep_ends_preserves_ends_witness :
    ∃ res, reduce_frames ([0, 1, 2, 3, 4] : List ℕ) ((3 : ℕ) : ℤ) "keep_ends" = .ok res ∧
      res.length = 3 ∧ res.head? = ([0, 1, 2, 3, 4] : List ℕ).head? ∧
      res.getLast? = ([0, 1, 2, 3, 4] : List ℕ).getLast? :=
  keep_ends_preserves_ends [0, 1, 2, 3, 4] 3 (by decide) (by decide)

/-! ### Claim C4: the every_nth strategy -/

lemma reduce_every_nth_exact {α : Type} [Inhabited α] (frames : List α) (T : ℕ)
    (h0 : 0 < T) (hlt : T < frames.length) :
    reduce_frames frames (T : ℤ) "every_nth" =
      .ok ((List.range T).map
        (fun j => frames.getD (j * max 1 (frames.length / T)) default)) := by
  have hle : ¬ ((frames.length : ℤ) ≤ (T : ℤ)) := by omega
  have h1 : 1 ≤ frames.length / T := (Nat.one_le_div_iff h0).mpr (le_of_lt hlt)
  have hfdiv : Int.fdiv (frames.length : ℤ) (T : ℤ) = ((frames.length / T : ℕ) : ℤ) := by
    rw [Int.fdiv_eq_ediv _ (by omega)]
    exact_mod_cast (Int.ofNat_ediv frames.length T).symm
  have hnth : (max 1 (Int.fdiv (frames.length : ℤ) (T : ℤ))).toNat = frames.length / T := by
    rw [hfdiv]
    omega
  have hmax : max 1 (frames.length / T) = frames.length / T := by omega
  have htoNat : (T : ℤ).toNat = T := by omega
  have hTcount : T ≤ (frames.length + frames.length / T - 1) / (frames.length / T) := by
    have hmul : frames.length / T * T ≤ frames.length := Nat.div_mul_le_self frames.length T
    have hTdiv : T ≤ frames.length / (frames.length / T) :=
      (Nat.le_div_iff_mul_le (by omega)).mpr (by rw [Nat.mul_comm]; omega)
    calc T ≤ frames.length / (frames.length / T) := hTdiv
      _ ≤ (frames.length + frames.length / T - 1) / (frames.length / T) :=
        Nat.div_le_div_right (by omega)
  rw [reduce_frames, if_neg hle, if_neg (by decide), if_neg (by decide),
    if_neg (by decide), if_neg (by decide)]
  simp only [reduce_every_nth, if_neg hle, if_neg (show ¬ ((T : ℤ) = 0) by omega),
    hnth, hmax, htoNat]
  rw [← List.map_take, List.take_range, min_eq_left hTcount]

/-- Claim C4 counterexample: the claimed possibility of a strict under-fill
never occurs — there is no input list and target `0 < T < len` (with `len` not
a multiple of `T`) for which the `every_nth` strategy returns fewer than `T`
frames. -/
theorem every_nth_never_underfills :
    (∃ (frames : List ℕ) (T : ℕ), 0 < T ∧ T < frames.length ∧
      frames.length % T ≠ 0 ∧
      ∃ res, reduce_frames frames (T : ℤ) "every_nth" = .ok res ∧ res.length < T) ↔
    False := by
  rw [iff_false]
  rintro ⟨frames, T, h0, hlt, -, res, heq, hlen⟩
  rw [reduce_every_nth_exact frames T h0 hlt] at heq
  have hres : res = (List.range T).map
      (fun j => frames.getD (j * max 1 (frames.length / T)) default) :=
    (Except.ok.inj heq).symm
  rw [hres] at hlen
  simp at hlen

/-- Claim C4 (amended): for `0 < target_count < len(frames)`, the `every_nth`
strategy returns exactly the frames at indices `0, n, 2n, ...` with
`n = max(1, len(frames) // target_count)`, collected until `target_count`
frames are taken; since `n = len // target` forces `n * target ≤ len`, the
loop always finds `target_count` indices, so the result has length exactly
`target_count` (never strictly fewer, even when `len(frames)` is not an exact
multiple of `target_count`). -/
theorem every_nth_indices_exact_count {α : Type} [Inhabited α] (frames : List α)
    (T : ℕ) (h0 : 0 < T) (hlt : T < frames.length) :
    ∃ res, reduce_frames frames (T : ℤ) "every_nth" = .ok res ∧
      res = (List.range T).map
        (fun j => frames.getD (j * max 1 (frames.length / T)) default) ∧
      res.length = T := by
  refine ⟨_, reduce_every_nth_exact frames T h0 hlt, rfl, by simp⟩

/-- Claim C4 witness: ten frames reduced to `T = 3` (10 is not a multiple of
3) yield exactly the indices 0, 3, 6 — three frames, not fewer. -/
theorem every_nth_indices_exact_count_witness :
    ∃ res, reduce_frames ([10, 11, 12, 13, 14, 15, 16, 17, 18, 19] : List ℕ)
        ((3 : ℕ) : ℤ) "every_nth" = .ok res ∧
      res = (List.range 3).map
        (fun j => ([10, 11, 12, 13, 14, 15, 16, 17, 18, 19] : List ℕ).getD
          (j * max 1 (([10, 11, 12, 13, 14, 15, 16, 17, 18, 19] : List ℕ).length / 3)) default) ∧
      res.length = 3 :=
  every_nth_indices_exact_count [10, 11, 12, 13, 14, 15, 16, 17, 18, 19] 3
    (by decide) (by decide)

/-! ### Claim C2: the remove_every pre-filter -/

lemma keepFrom_nil {α : Type} (r k : ℕ) : keepByPositionFrom r k ([] : List α) = [] := rfl

lemma keepFrom_cons {α : Type} (r k : ℕ) (a : α) (l : List α) :
    keepByPositionFrom r k (a :: l) =
      (if k % (r + 1) = r then [] else [a]) ++ keepByPositionFrom r (k + 1) l := by
  rw [keepByPositionFrom, keepByPositionFrom]
  show ((((k, a) :: List.enumFrom (k + 1) l).filter _).map Prod.snd) = _
  rw [List.filter_cons]
  by_cases h : k % (r + 1) = r
  · simp [h]
  · simp [h]

lemma keepFrom_shift {α : Type} (r : ℕ) (l : List α) :
    ∀ k, keepByPositionFrom r (k + (r + 1)) l = keepByPositionFrom r k l := by
  induction l with
  | nil => intro k; rfl
  | cons a t ih =>
    intro k
    rw [keepFrom_cons, keepFrom_cons, Nat.add_mod_right]
    have harr : k + (r + 1) + 1 = (k + 1) + (r + 1) := by omega
    rw [harr, ih (k + 1)]

lemma keepFrom_window {α : Type} (r : ℕ) :
    ∀ (j k : ℕ) (l : List α), j + k % (r + 1) = r →
      keepByPositionFrom r k l =
        l.take j ++ keepByPositionFrom r (k + j + 1) (l.drop (j + 1)) := by
  intro j
  induction j with
  | zero =>
    intro k l h
    cases l with
    | nil => simp [keepFrom_nil]
    | cons a t =>
      rw [keepFrom_cons, if_pos (by omega)]
      simp
  | succ j ih =>
    intro k l h
    cases l with
    | nil => simp [keepFrom_nil]
    | cons a t =>
      have hkr : ¬ (k % (r + 1) = r) := by omega
      have hrpos : 1 ≤ r := by omega
      have hklt : k % (r + 1) + 1 < r + 1 := by omega
      have hk1 : (k + 1) % (r + 1) = k % (r + 1) + 1 := by
        calc (k + 1) % (r + 1) = (k % (r + 1) + 1 % (r + 1)) % (r + 1) := Nat.add_mod k 1 (r + 1)
          _ = (k % (r + 1) + 1) % (r + 1) := by rw [Nat.mod_eq_of_lt (by omega : 1 < r + 1)]
          _ = k % (r + 1) + 1 := Nat.mod_eq_of_lt hklt
      rw [keepFrom_cons, if_neg hkr, ih (k + 1) t (by omega)]
      simp only [List.take_succ_cons, List.drop_succ_cons, List.cons_append,
        List.singleton_append]
      have harr : k + 1 + j + 1 = k + (j + 1) + 1 := by omega
      rw [harr]
      simp

lemma removeEveryGo_eq_keepByPosition {α : Type} (r : ℕ) :
    ∀ (n : ℕ) (l : List α), l.length ≤ n → removeEveryGo r l = keepByPositionFrom r 0 l := by
  intro n
  induction n with
  | zero =>
    intro l hl
    have hnil : l = [] := List.length_eq_zero.mp (Nat.le_zero.mp hl)
    rw [hnil]
    simp [removeEveryGo, keepFrom_nil]
  | succ n ih =>
    intro l hl
    cases l with
    | nil => simp [removeEveryGo, keepFrom_nil]
    | cons a t =>
      rw [removeEveryGo, keepFrom_window r r 0 (a :: t) (by simp),
        ih ((a :: t).drop (r + 1)) (by
          simp only [List.length_drop, List.length_cons] at hl ⊢
          omega)]
      have h0r : 0 + r + 1 = 0 + (r + 1) := by omega
      rw [h0r, keepFrom_shift r _ 0]

/-- Claim C2: the pre-filter `remove_every(frames, keep_r)` keeps, for
`keep_r = r > 0`, exactly the frames at positions `p` with
`p % (r + 1) ≠ r` ("keep r, drop 1" in a repeating window), and is a no-op
for `keep_r = 0`. The reducer class in the sources does not define the
method (only the application layer calls it), so `remove_every` here is
modelled from the spec's words. -/
theorem remove_every_keeps_positions {α : Type} (frames : List α) (r : ℕ) :
    (0 < r → remove_every frames r = keepByPosition r frames) ∧
    remove_every frames 0 = frames := by
  constructor
  · intro hr
    rw [remove_every, if_neg (by omega),
      removeEveryGo_eq_keepByPosition r frames.length frames le_rfl]
    rfl
  · rfl

/-! ### Claim C1: resizing a frame into a cell -/

lemma resizeDims_square (w h cell : ℕ) (hw : 0 < w) (hh : 0 < h) (hc : 0 < cell) :
    resizeDims w h cell cell =
      (⌊(w : ℚ) * min ((cell : ℚ) / (w : ℚ)) ((cell : ℚ) / (h : ℚ))⌋₊,
       ⌊(h : ℚ) * min ((cell : ℚ) / (w : ℚ)) ((cell : ℚ) / (h : ℚ))⌋₊) := by
  have hwQ : (0 : ℚ) < (w : ℚ) := by exact_mod_cast hw
  have hhQ : (0 : ℚ) < (h : ℚ) := by exact_mod_cast hh
  rw [resizeDims]
  by_cases hcond : w * cell > cell * h
  · have hhw : h < w := by
      rw [Nat.mul_comm w cell] at hcond
      exact Nat.lt_of_mul_lt_mul_left hcond
    have hmin : min ((cell : ℚ) / (w : ℚ)) ((cell : ℚ) / (h : ℚ)) = (cell : ℚ) / (w : ℚ) := by
      apply min_eq_left
      gcongr
    rw [if_pos hcond, hmin, Prod.mk.injEq]
    constructor
    · have hx : (w : ℚ) * ((cell : ℚ) / (w : ℚ)) = ((cell : ℕ) : ℚ) := by
        field_simp
      rw [hx, Nat.floor_natCast]
    · have hx : (h : ℚ) * ((cell : ℚ) / (w : ℚ)) = (((h * cell : ℕ) : ℚ)) / ((w : ℕ) : ℚ) := by
        push_cast
        ring
      rw [hx, Nat.floor_div_nat, Nat.floor_natCast, Nat.mul_comm h cell]
  · have hwh : w ≤ h := by
      push_neg at hcond
      rw [Nat.mul_comm cell h] at hcond
      exact Nat.le_of_mul_le_mul_right hcond hc
    have hmin : min ((cell : ℚ) / (w : ℚ)) ((cell : ℚ) / (h : ℚ)) = (cell : ℚ) / (h : ℚ) := by
      apply min_eq_right
      gcongr
    rw [if_neg hcond, hmin, Prod.mk.injEq]
    constructor
    · have hx : (w : ℚ) * ((cell : ℚ) / (h : ℚ)) = (((w * cell : ℕ) : ℚ)) / ((h : ℕ) : ℚ) := by
        push_cast
        ring
      rw [hx, Nat.floor_div_nat, Nat.floor_natCast, Nat.mul_comm w cell]
    · have hx : (h : ℚ) * ((cell : ℚ) / (h : ℚ)) = ((cell : ℕ) : ℚ) := by
        field_simp
      rw [hx, Nat.floor_natCast]

/-- Claim C1 counterexample: a 10x10 frame placed into a 512-px cell. The
spec's formula `scale = min(1, cell/w, cell/h)` would keep it at 10x10, but
the code scales it up to fill the cell: the resized dimensions are 512x512. -/
theorem resize_upscales_small_frames :
    resizeDims 10 10 512 512 = (512, 512) ∧
    specResizeDims 10 10 512 512 = (10, 10) ∧
    ((512, 512) : ℕ × ℕ) ≠ ((10, 10) : ℕ × ℕ) := by
  refine ⟨rfl, ?_, by decide⟩
  rw [specResizeDims, Prod.mk.injEq]
  norm_num

/-- Claim C1 (amended): every frame placed into an atlas cell is resized by
the scale `min(cell_w/src_w, cell_h/src_h)` — without the spec's cap at 1, so
a frame smaller than the cell is upscaled to fill it — and the resized content
is centered in the cell by the integer offsets
`((cell_size - new_w) // 2, (cell_size - new_h) // 2)` on a fully transparent
background (pixels outside the centered rectangle are `(0, 0, 0, 0)`). -/
theorem resize_scales_and_centers (resample : Frame → ℕ → ℕ → ℕ → ℕ → RGBA)
    (frame : Frame) (cell : ℕ) (hw : 0 < frame.width) (hh : 0 < frame.height)
    (hc : 0 < cell) :
    ∃ g, resize_frame resample frame cell cell = .ok g ∧
      g.width = cell ∧ g.height = cell ∧
      ∀ nw nh, resizeDims frame.width frame.height cell cell = (nw, nh) →
        nw = ⌊(frame.width : ℚ) *
          min ((cell : ℚ) / (frame.width : ℚ)) ((cell : ℚ) / (frame.height : ℚ))⌋₊ ∧
        nh = ⌊(frame.height : ℚ) *
          min ((cell : ℚ) / (frame.width : ℚ)) ((cell : ℚ) / (frame.height : ℚ))⌋₊ ∧
        ∀ x y, ¬ ((cell - nw) / 2 ≤ x ∧ x < (cell - nw) / 2 + nw ∧
            (cell - nh) / 2 ≤ y ∧ y < (cell - nh) / 2 + nh) →
          g.pixel x y = (0, 0, 0, 0) := by
  have hguard : ¬ (frame.height = 0 ∨ cell = 0) := by
    push_neg
    omega
  refine ⟨_, by rw [resize_frame, if_neg hguard], rfl, rfl, ?_⟩
  intro nw nh heq
  have hdims := resizeDims_square frame.width frame.height cell hw hh hc
  rw [heq, Prod.mk.injEq] at hdims
  refine ⟨hdims.1, hdims.2, ?_⟩
  intro x y hxy
  show (if (cell - (resizeDims frame.width frame.height cell cell).1) / 2 ≤ x ∧
      x < (cell - (resizeDims frame.width frame.height cell cell).1) / 2 +
        (resizeDims frame.width frame.height cell cell).1 ∧
      (cell - (resizeDims frame.width frame.height cell cell).2) / 2 ≤ y ∧
      y < (cell - (resizeDims frame.width frame.height cell cell).2) / 2 +
        (resizeDims frame.width frame.height cell cell).2
    then resample frame (resizeDims frame.width frame.height cell cell).1
      (resizeDims frame.width frame.height cell cell).2
      (x - (cell - (resizeDims frame.width frame.height cell cell).1) / 2)
      (y - (cell - (resizeDims frame.width frame.height cell cell).2) / 2)
    else (0, 0, 0, 0)) = (0, 0, 0, 0)
  rw [heq]
  exact if_neg hxy

/-- Claim C1 witness: a 10x4 frame resized into a 512-px cell scales by
`512/10` (upscaling), is centered, and the cell outside the pasted rectangle
is transparent. -/
theorem resize_scales_and_centers_witness :
    ∃ g, resize_frame constResample frame10x4 512 512 = .ok g ∧
      g.width = 512 ∧ g.height = 512 ∧
      ∀ nw nh, resizeDims frame10x4.width frame10x4.height 512 512 = (nw, nh) →
        nw = ⌊(frame10x4.width : ℚ) *
          min ((512 : ℚ) / (frame10x4.width : ℚ)) ((512 : ℚ) / (frame10x4.height : ℚ))⌋₊ ∧
        nh = ⌊(frame10x4.height : ℚ) *
          min ((512 : ℚ) / (frame10x4.width : ℚ)) ((512 : ℚ) / (frame10x4.height : ℚ))⌋₊ ∧
        ∀ x y, ¬ ((512 - nw) / 2 ≤ x ∧ x < (512 - nw) / 2 + nw ∧
            (512 - nh) / 2 ≤ y ∧ y < (512 - nh) / 2 + nh) →
          g.pixel x y = (0, 0, 0, 0) :=
  resize_scales_and_centers constResample frame10x4 512
    (by decide) (by decide) (by decide)

/-! ### Claim C10: the build path enforces no frame-count ceiling -/

lemma getD_mem {α : Type} (l : List α) (d : α) (i : ℕ) (h : i < l.length) :
    l.getD i d ∈ l := by
  rw [List.getD_eq_getElem l d h]
  exact List.getElem_mem h

lemma grid_frame_size_pos (m : ℤ) : 0 < (determine_grid_layout m).2.2.toNat := by
  rw [determine_grid_layout]
  split_ifs <;> decide

lemma foldl_paste_ok (resample : Frame → ℕ → ℕ → ℕ → ℕ → RGBA)
    (blend : RGBA → RGBA → RGBA) (frames : List Frame) (gw fs : ℕ) (hfs : 0 < fs) :
    ∀ (l : List ℕ) (s : Frame),
      (∀ i ∈ l, 0 < (frames.getD i defaultFrame).height) →
      ∃ out,
        l.foldlM (fun sheet i =>
          (resize_frame resample (frames.getD i defaultFrame) fs fs).map
            (fun resized =>
              pasteMasked blend sheet resized ((i % gw) * fs) ((i / gw) * fs))) s =
          .ok out ∧ out.width = s.width ∧ out.height = s.height := by
  intro l
  induction l with
  | nil => exact fun s _ => ⟨s, rfl, rfl, rfl⟩
  | cons i t ih =>
    intro s hl
    have hi : 0 < (frames.getD i defaultFrame).height := hl i (List.mem_cons_self i t)
    have hguard : ¬ ((frames.getD i defaultFrame).height = 0 ∨ fs = 0) := by
      push_neg
      omega
    rw [List.foldlM_cons, resize_frame, if_neg hguard]
    obtain ⟨out, hout, hw, hh⟩ :=
      ih (pasteMasked blend s _ ((i % gw) * fs) ((i / gw) * fs))
        (fun j hj => hl j (List.mem_cons_of_mem i hj))
    exact ⟨out, by simpa using hout, hw, hh⟩

/-- Claim C10 counterexample: a one-element frame list whose frame has height
0 — the list is not empty, yet `create_sprite_sheet` raises
(`ZeroDivisionError` from `frame_ratio = width / height`), so "raises if and
only if the frame list is empty" fails as stated. -/
theorem create_sprite_sheet_zero_height_raises :
    ([frame5x0] : List Frame) ≠ [] ∧
    create_sprite_sheet constResample constBlend [frame5x0] (some 1) =
      .error "ZeroDivisionError: division by zero" := by
  exact ⟨by simp, rfl⟩

/-- Claim C10 (amended): the build path enforces no 64-frame ceiling.
`determine_grid_layout` returns `(8, 8, 128)` for every `frame_count ≥ 17`
with no upper bound; the bounds check `validate_frame_count` (1..64) exists
but rejects 0 and 65 while the build path accepts them: for frames of
positive height, `create_sprite_sheet` raises exactly on the empty frame list
("No frames provided") and for any non-empty list returns a 1024x1024 RGBA
sheet for every requested `frame_count` (including values above 64, values
`≤ 0`, and `None`). A zero-height frame additionally raises
`ZeroDivisionError` during resizing, which is why positive height is assumed. -/
theorem atlas_build_no_ceiling :
    (∀ n : ℤ, 17 ≤ n → determine_grid_layout n = (8, 8, 128)) ∧
    (validate_frame_count 0 = false ∧ validate_frame_count 65 = false ∧
      validate_frame_count 1 = true ∧ validate_frame_count 64 = true) ∧
    (∀ resample blend fc, create_sprite_sheet resample blend [] fc =
      .error "No frames provided") ∧
    (∀ resample blend frames fc, frames ≠ [] → (∀ f ∈ frames, 0 < f.height) →
      ∃ s, create_sprite_sheet resample blend frames fc = .ok s ∧
        s.width = 1024 ∧ s.height = 1024) := by
  refine ⟨?_, by decide, fun _ _ _ => rfl, ?_⟩
  · intro n hn
    rw [determine_grid_layout, if_neg (by omega), if_neg (by omega)]
  · intro resample blend frames fc hne hpos
    rw [create_sprite_sheet,
      if_neg (show ¬ (frames.isEmpty = true) from
        fun h => hne (List.isEmpty_iff.mp h))]
    have hlen : (min (fc.getD (frames.length : ℤ)) (frames.length : ℤ)).toNat ≤
        frames.length := by
      have h1 : min (fc.getD (frames.length : ℤ)) (frames.length : ℤ) ≤
          (frames.length : ℤ) := min_le_right _ _
      omega
    obtain ⟨out, hout, hw, hh⟩ :=
      foldl_paste_ok resample blend frames
        (determine_grid_layout
          (min (fc.getD (frames.length : ℤ)) (frames.length : ℤ))).1.toNat
        (determine_grid_layout
          (min (fc.getD (frames.length : ℤ)) (frames.length : ℤ))).2.2.toNat
        (grid_frame_size_pos _)
        (List.range (min (fc.getD (frames.length : ℤ)) (frames.length : ℤ)).toNat)
        blankSheet
        (fun i hi => by
          rw [List.mem_range] at hi
          exact hpos _ (getD_mem frames defaultFrame i (by omega)))
    exact ⟨out, hout, hw, hh⟩

/-! ### Claims C7, C8, C9: palette optimization -/

lemma minVal_le {α : Type} (f : α → ℚ) : ∀ (l : List α) (a : α), a ∈ l → minVal f l ≤ f a
  | [], a, ha => absurd ha (List.not_mem_nil a)
  | [b], a, ha => by
    rw [List.mem_singleton] at ha
    rw [ha, minVal]
  | b :: c :: t, a, ha => by
    rw [List.mem_cons] at ha
    rcases ha with ha | ha
    · rw [ha, minVal]
      exact min_le_left _ _
    · refine le_trans ?_ (minVal_le f (c :: t) a ha)
      rw [minVal]
      exact min_le_right _ _

lemma argminIdx_lt_length {α : Type} (f : α → ℚ) :
    ∀ (l : List α), l ≠ [] → argminIdx f l < l.length
  | [], h => absurd rfl h
  | [b], _ => by rw [argminIdx]; simp
  | b :: c :: t, _ => by
    rw [argminIdx]
    by_cases hb : f b ≤ minVal f (c :: t)
    · rw [if_pos hb]
      simp
    · rw [if_neg hb]
      have := argminIdx_lt_length f (c :: t) (by simp)
      simp only [List.length_cons] at this ⊢
      omega

lemma argmin_getD_eq_minVal {α : Type} (f : α → ℚ) (d : α) :
    ∀ (l : List α), l ≠ [] → f (l.getD (argminIdx f l) d) = minVal f l
  | [], h => absurd rfl h
  | [b], _ => by rw [argminIdx, minVal]; rfl
  | b :: c :: t, _ => by
    rw [argminIdx, minVal]
    by_cases hb : f b ≤ minVal f (c :: t)
    · rw [if_pos hb]
      show f b = min (f b) (minVal f (c :: t))
      rw [min_eq_left hb]
    · rw [if_neg hb]
      show f ((c :: t).getD (argminIdx f (c :: t)) d) = min (f b) (minVal f (c :: t))
      rw [argmin_getD_eq_minVal f d (c :: t) (by simp),
        min_eq_right (le_of_lt (not_le.mp hb))]

lemma argmin_getD_mem {α : Type} (f : α → ℚ) (d : α) (l : List α) (h : l ≠ []) :
    l.getD (argminIdx f l) d ∈ l :=
  getD_mem l d _ (argminIdx_lt_length f l h)

lemma argmin_getD_le {α : Type} (f : α → ℚ) (d : α) (l : List α) (h : l ≠ [])
    (a : α) (ha : a ∈ l) : f (l.getD (argminIdx f l) d) ≤ f a := by
  rw [argmin_getD_eq_minVal f d l h]
  exact minVal_le f l a ha

lemma apply_palette_ok (image palette : List RGBA) (hp : palette ≠ []) :
    apply_palette image palette = .ok (image.map (fun p =>
      toUint8RGBA (palette.getD (argminIdx (dist3Sq p) palette) (0, 0, 0, 255)))) := by
  rw [apply_palette, if_neg (fun h => hp h.1)]

lemma dedup_length_le_of_subset (l l' : List RGBA) (h : ∀ x ∈ l, x ∈ l') :
    l.dedup.length ≤ l'.dedup.length := by
  rw [← List.card_toFinset, ← List.card_toFinset]
  apply Finset.card_le_card
  intro x hx
  rw [List.mem_toFinset] at hx ⊢
  exact h x hx

lemma kmeansStep_length (ps cs : List QRGBA) : (kmeansStep ps cs).length = cs.length := by
  simp [kmeansStep]

lemma kmeansLoop_ok (ps : List QRGBA) :
    ∀ (fuel : ℕ) (cs : List QRGBA), cs ≠ [] →
      ∃ cs2, kmeansLoop ps fuel cs = .ok cs2 ∧ cs2.length = cs.length := by
  intro fuel
  induction fuel with
  | zero => exact fun cs _ => ⟨cs, rfl, rfl⟩
  | succ n ih =>
    intro cs hcs
    rw [kmeansLoop, if_neg hcs]
    by_cases hconv : maxAbsDiff cs (kmeansStep ps cs) < 1 / 1000
    · rw [if_pos hconv]
      exact ⟨cs, rfl, rfl⟩
    · rw [if_neg hconv]
      obtain ⟨cs2, h1, h2⟩ := ih (kmeansStep ps cs) (by
        intro h
        have := kmeansStep_length ps cs
        rw [h] at this
        simp at this
        exact hcs (List.length_eq_zero.mp this.symm))
      exact ⟨cs2, h1, by rw [h2, kmeansStep_length]⟩

lemma kmeans_ok (samp : ℕ → List RGBA → List RGBA) (init : List RGBA → ℕ → List RGBA)
    (frames : List (List RGBA)) (k : ℕ) (hk : 1 ≤ k)
    (hinit : (init ((frames.map (samplePixels samp 10000)).flatten) k).length = k)
    (hn : k ≤ ((frames.map (samplePixels samp 10000)).flatten).length) :
    ∃ cs2, kmeansLoop (((frames.map (samplePixels samp 10000)).flatten).map toQ) 50
        ((init ((frames.map (samplePixels samp 10000)).flatten) k).map toQ) = .ok cs2 ∧
      kmeans_clustering samp init frames k = .ok (cs2.map roundRGBA) ∧
      (cs2.map roundRGBA).length = k := by
  have hne : (frames.map (samplePixels samp 10000)).flatten ≠ [] := by
    intro h
    rw [h] at hn
    simp at hn
    omega
  have hcs : (init ((frames.map (samplePixels samp 10000)).flatten) k).map toQ ≠ [] := by
    intro h
    have := congrArg List.length h
    simp [hinit] at this
    omega
  obtain ⟨cs2, hloop, hlen⟩ :=
    kmeansLoop_ok (((frames.map (samplePixels samp 10000)).flatten).map toQ) 50 _ hcs
  refine ⟨cs2, hloop, ?_, ?_⟩
  · rw [kmeans_clustering]
    simp only [if_neg hne, if_neg (not_lt.mpr hn)]
    rw [hloop]
  · rw [List.length_map, hlen, List.length_map, hinit]

lemma optimize_builds_and_applies (samp : ℕ → List RGBA → List RGBA)
    (init : List RGBA → ℕ → List RGBA) (sheet : List RGBA) (t : ℕ)
    (ht : 1 ≤ t) (hgt : t < uniqueColorCount [sheet])
    (hinitLen : ∀ (l : List RGBA) (k : ℕ), k ≤ l.length → (init l k).length = k)
    (hfeas : t ≤ (samplePixels samp 10000 sheet).length) :
    ∃ pal, create_optimized_palette samp init [sheet] t = .ok pal ∧ pal.length = t ∧
      optimize_sprite_sheet samp init sheet t =
        .ok (sheet.map (fun p =>
          toUint8RGBA (pal.getD (argminIdx (dist3Sq p) pal) (0, 0, 0, 255)))) := by
  have hflat : (([sheet] : List (List RGBA)).map (samplePixels samp 10000)).flatten
      = samplePixels samp 10000 sheet := by
    simp
  obtain ⟨cs2, hloop, hkm, hlen⟩ := kmeans_ok samp init [sheet] t ht
    (hinitLen _ t (by rw [hflat]; exact hfeas)) (by rw [hflat]; exact hfeas)
  have hpalne : cs2.map roundRGBA ≠ [] := by
    intro h
    rw [h] at hlen
    simp at hlen
    omega
  have hcreate : create_optimized_palette samp init [sheet] t = .ok (cs2.map roundRGBA) := by
    rw [create_optimized_palette, if_neg (by omega)]
    exact hkm
  refine ⟨cs2.map roundRGBA, hcreate, hlen, ?_⟩
  rw [optimize_sprite_sheet, if_neg (by omega), hcreate]
  exact apply_palette_ok sheet _ hpalne

lemma applied_unique_le (sheet pal : List RGBA) (hp : pal ≠ []) :
    uniqueColorCount [sheet.map (fun p =>
      toUint8RGBA (pal.getD (argminIdx (dist3Sq p) pal) (0, 0, 0, 255)))] ≤ pal.length := by
  have hflat : uniqueColorCount [sheet.map (fun p =>
      toUint8RGBA (pal.getD (argminIdx (dist3Sq p) pal) (0, 0, 0, 255)))] =
      (sheet.map (fun p =>
        toUint8RGBA (pal.getD (argminIdx (dist3Sq p) pal) (0, 0, 0, 255)))).dedup.length := by
    rw [uniqueColorCount]
    simp
  rw [hflat]
  refine le_trans (dedup_length_le_of_subset _ (pal.map toUint8RGBA) ?_)
    (le_trans (List.Sublist.length_le (List.dedup_sublist _)) (by rw [List.length_map]))
  intro x hx
  rw [List.mem_map] at hx
  obtain ⟨p, hp', hpx⟩ := hx
  rw [← hpx]
  exact List.mem_map_of_mem toUint8RGBA (argmin_getD_mem _ _ pal hp)

lemma sampled_ne_nil (samp : ℕ → List RGBA → List RGBA)
    (hsampLen : ∀ (n : ℕ) (l : List RGBA), n ≤ l.length → (samp n l).length = n)
    (cap : ℕ) (hcap : 0 < cap) (sheet : List RGBA) (hne : sheet ≠ []) :
    samplePixels samp cap sheet ≠ [] := by
  rw [samplePixels]
  split_ifs with h10
  · intro h
    have := hsampLen cap sheet (le_of_lt h10)
    rw [h] at this
    simp at this
    omega
  · exact hne

lemma kmeansLoop_nil_error (ps : List QRGBA) :
    kmeansLoop ps 50 [] = .error "attempt to get argmin of an empty sequence" := by
  have h50 : (50 : ℕ) = 49 + 1 := rfl
  rw [h50, kmeansLoop, if_pos rfl]

lemma optimize_ok_unique_le (samp : ℕ → List RGBA → List RGBA)
    (init : List RGBA → ℕ → List RGBA)
    (hsampLen : ∀ (n : ℕ) (l : List RGBA), n ≤ l.length → (samp n l).length = n)
    (hinitLen : ∀ (l : List RGBA) (k : ℕ), k ≤ l.length → (init l k).length = k)
    (sheet : List RGBA) (t : ℕ) (y : List RGBA)
    (h : optimize_sprite_sheet samp init sheet t = .ok y) :
    uniqueColorCount [y] ≤ t := by
  by_cases hle : uniqueColorCount [sheet] ≤ t
  · rw [optimize_sprite_sheet, if_pos hle] at h
    rw [← Except.ok.inj h]
    exact hle
  · have hgt : t < uniqueColorCount [sheet] := by omega
    have hsne : sheet ≠ [] := by
      intro h0
      apply hle
      rw [h0]
      show ((([] : List RGBA) :: []).flatten).dedup.length ≤ t
      simp
    have hflat : (([sheet] : List (List RGBA)).map (samplePixels samp 10000)).flatten
        = samplePixels samp 10000 sheet := by
      simp
    have hapne : (([sheet] : List (List RGBA)).map (samplePixels samp 10000)).flatten ≠ [] := by
      rw [hflat]
      exact sampled_ne_nil samp hsampLen 10000 (by omega) sheet hsne
    rcases Nat.eq_zero_or_pos t with ht0 | ht1
    · -- target 0: the k-means loop fails on empty centroids and the fallback
      -- divides by zero, so the call raises — contradicting `h`.
      exfalso
      subst ht0
      have hinit0 : init ((([sheet] : List (List RGBA)).map (samplePixels samp 10000)).flatten) 0
          = [] := List.length_eq_zero.mp (hinitLen _ 0 (Nat.zero_le _))
      have hfb : simple_color_sampling samp [sheet] 0 =
          .error "ZeroDivisionError: integer division or modulo by zero" := by
        have hcolne : ((([sheet] : List (List RGBA)).map (samplePixels samp 5000)).flatten).dedup
            ≠ [] := by
          rw [show (([sheet] : List (List RGBA)).map (samplePixels samp 5000)).flatten
              = samplePixels samp 5000 sheet from by simp]
          rw [ne_eq, List.dedup_eq_nil]
          exact sampled_ne_nil samp hsampLen 5000 (by omega) sheet hsne
        rw [simple_color_sampling, if_neg hcolne,
          if_neg (by
            intro hc
            exact hcolne (List.length_eq_zero.mp (Nat.le_zero.mp hc))),
          if_pos rfl]
      have hkm : kmeans_clustering samp init [sheet] 0 =
          .error "ZeroDivisionError: integer division or modulo by zero" := by
        rw [kmeans_clustering]
        simp only [if_neg hapne, if_neg (by omega : ¬ ((([sheet] : List (List RGBA)).map
          (samplePixels samp 10000)).flatten.length < 0))]
        rw [hinit0, List.map_nil, kmeansLoop_nil_error]
        exact hfb
      rw [optimize_sprite_sheet, if_neg hle, create_optimized_palette,
        if_neg (by omega), hkm] at h
      simp at h
    · by_cases hfeas : t ≤ (samplePixels samp 10000 sheet).length
      · obtain ⟨pal, hcreate, hlen, hopt⟩ :=
          optimize_builds_and_applies samp init sheet t ht1 hgt hinitLen hfeas
        rw [hopt] at h
        have hpalne : pal ≠ [] := by
          intro h0
          rw [h0] at hlen
          simp at hlen
          omega
        rw [← Except.ok.inj h, ← hlen]
        exact applied_unique_le sheet pal hpalne
      · exfalso
        have hkm : kmeans_clustering samp init [sheet] t =
            .error "ValueError: Cannot take a larger sample than population when replace is False" := by
          rw [kmeans_clustering]
          simp only [if_neg hapne]
          rw [if_pos (by rw [hflat]; omega)]
        rw [optimize_sprite_sheet, if_neg hle, create_optimized_palette,
          if_neg (by omega), hkm] at h
        simp at h

/-- Claim C8: `optimize_palette` is idempotent: for any image already within
the target (`unique-color count ≤ target_colors`) the call returns the image
with identical pixel data, and applying the optimizer twice with the same
target yields the same result as applying it once (on a raising input both
sides raise alike). `samp`/`init` abstract the library's seeded sampling
draws, assumed only to return the requested number of elements. -/
theorem optimize_palette_idempotent (samp : ℕ → List RGBA → List RGBA)
    (init : List RGBA → ℕ → List RGBA)
    (hsampLen : ∀ (n : ℕ) (l : List RGBA), n ≤ l.length → (samp n l).length = n)
    (hinitLen : ∀ (l : List RGBA) (k : ℕ), k ≤ l.length → (init l k).length = k) :
    (∀ (sheet : List RGBA) (t : ℕ), uniqueColorCount [sheet] ≤ t →
      optimize_sprite_sheet samp init sheet t = .ok sheet) ∧
    (∀ (sheet : List RGBA) (t : ℕ),
      (optimize_sprite_sheet samp init sheet t).bind
          (fun y => optimize_sprite_sheet samp init y t) =
        optimize_sprite_sheet samp init sheet t) := by
  have hid : ∀ (sheet : List RGBA) (t : ℕ), uniqueColorCount [sheet] ≤ t →
      optimize_sprite_sheet samp init sheet t = .ok sheet := by
    intro sheet t hle
    rw [optimize_sprite_sheet, if_pos hle]
  refine ⟨hid, ?_⟩
  intro sheet t
  cases hopt : optimize_sprite_sheet samp init sheet t with
  | error e => rfl
  | ok y =>
    show optimize_sprite_sheet samp init y t = Except.ok y
    exact hid y t (optimize_ok_unique_le samp init hsampLen hinitLen sheet t y hopt)

/-- Claim C8 witness: with the deterministic sample/seed instances, a
one-color image is returned unchanged at target 4, and optimizing a two-color
image to one color twice equals optimizing it once. -/
theorem optimize_palette_idempotent_witness :
    optimize_sprite_sheet sampTake initTake [(0, 0, 0, 255)] 4 = .ok [(0, 0, 0, 255)] ∧
    (optimize_sprite_sheet sampTake initTake [(0, 0, 0, 255), (10, 0, 0, 255)] 1).bind
        (fun y => optimize_sprite_sheet sampTake initTake y 1) =
      optimize_sprite_sheet sampTake initTake [(0, 0, 0, 255), (10, 0, 0, 255)] 1 := by
  have hsampLen : ∀ (n : ℕ) (l : List RGBA), n ≤ l.length → (sampTake n l).length = n := by
    intro n l h
    rw [sampTake]
    simp
    omega
  have hinitLen : ∀ (l : List RGBA) (k : ℕ), k ≤ l.length → (initTake l k).length = k := by
    intro l k h
    rw [initTake]
    simp
    omega
  exact ⟨(optimize_palette_idempotent sampTake initTake hsampLen hinitLen).1 _ 4 (by decide),
    (optimize_palette_idempotent sampTake initTake hsampLen hinitLen).2 _ 1⟩

/-- Claim C9 (amended): palette construction does not raise — and a palette of
at least one entry is produced, the optimized image being returned — provided
the requested `target_colors` does not exceed the number of collected
(possibly sub-sampled, capped at 10000 per frame) pixels. When it does, the
`np.random.choice` seeding raises `ValueError` before the `try` that guards
the clustering loop, and the error propagates to the caller (see the
counterexample). -/
theorem palette_construction_no_raise (samp : ℕ → List RGBA → List RGBA)
    (init : List RGBA → ℕ → List RGBA) (sheet : List RGBA) (t : ℕ)
    (hsampLen : ∀ (n : ℕ) (l : List RGBA), n ≤ l.length → (samp n l).length = n)
    (hinitLen : ∀ (l : List RGBA) (k : ℕ), k ≤ l.length → (init l k).length = k)
    (hne : sheet ≠ []) (ht : 1 ≤ t)
    (hfeas : t ≤ (samplePixels samp 10000 sheet).length) :
    ∃ y, optimize_sprite_sheet samp init sheet t = .ok y := by
  by_cases hle : uniqueColorCount [sheet] ≤ t
  · exact ⟨sheet, by rw [optimize_sprite_sheet, if_pos hle]⟩
  · obtain ⟨pal, hcreate, hlen, hopt⟩ :=
      optimize_builds_and_applies samp init sheet t ht (by omega) hinitLen hfeas
    exact ⟨_, hopt⟩

/-- Claim C9 witness: a two-color image optimized to one color with the
deterministic sample/seed instances succeeds (no exception escapes). -/
theorem palette_construction_no_raise_witness :
    ∃ y, optimize_sprite_sheet sampTake initTake [(0, 0, 0, 255), (10, 0, 0, 255)] 1 = .ok y :=
  palette_construction_no_raise sampTake initTake [(0, 0, 0, 255), (10, 0, 0, 255)] 1
    (by
      intro n l h
      rw [sampTake]
      simp
      omega)
    (by
      intro l k h
      rw [initTake]
      simp
      omega)
    (by decide) (by decide) (by decide)

lemma toQ_qchan (p : RGBA) (h : chan255 p) : qchan255 (toQ p) := by
  obtain ⟨h1, h2, h3, h4⟩ := h
  simp only [toQ, qchan255]
  refine ⟨⟨by positivity, by exact_mod_cast h1⟩, ⟨by positivity, by exact_mod_cast h2⟩,
    ⟨by positivity, by exact_mod_cast h3⟩, ⟨by positivity, by exact_mod_cast h4⟩⟩

lemma mean_channel_bounds (l : List ℚ) (hne : l ≠ []) (h : ∀ x ∈ l, 0 ≤ x ∧ x ≤ 255) :
    0 ≤ l.sum / (l.length : ℚ) ∧ l.sum / (l.length : ℚ) ≤ 255 := by
  have hlen : (0 : ℚ) < (l.length : ℚ) := by
    have := List.length_pos.mpr hne
    exact_mod_cast this
  constructor
  · exact div_nonneg (List.sum_nonneg fun x hx => (h x hx).1) (le_of_lt hlen)
  · rw [div_le_iff hlen]
    have hs := List.sum_le_card_nsmul l 255 (fun x hx => (h x hx).2)
    rw [nsmul_eq_mul] at hs
    linarith

lemma meanQ_qchan (l : List QRGBA) (hne : l ≠ []) (h : ∀ c ∈ l, qchan255 c) :
    qchan255 (meanQ l) := by
  have hb : ∀ (f : QRGBA → ℚ), (∀ c ∈ l, 0 ≤ f c ∧ f c ≤ 255) →
      0 ≤ (l.map f).sum / ((l.map f).length : ℚ) ∧
        (l.map f).sum / ((l.map f).length : ℚ) ≤ 255 := by
    intro f hf
    apply mean_channel_bounds
    · intro h0
      exact hne (List.map_eq_nil.mp h0)
    · intro x hx
      rw [List.mem_map] at hx
      obtain ⟨c, hc, rfl⟩ := hx
      exact hf c hc
  have h1 := hb (fun c => c.1) (fun c hc => (h c hc).1)
  have h2 := hb (fun c => c.2.1) (fun c hc => (h c hc).2.1)
  have h3 := hb (fun c => c.2.2.1) (fun c hc => (h c hc).2.2.1)
  have h4 := hb (fun c => c.2.2.2) (fun c hc => (h c hc).2.2.2)
  rw [List.length_map] at h1 h2 h3 h4
  exact ⟨h1, h2, h3, h4⟩

lemma qchan255_getD (cs : List QRGBA) (i : ℕ) (h : ∀ c ∈ cs, qchan255 c) :
    qchan255 (cs.getD i (0, 0, 0, 0)) := by
  by_cases hi : i < cs.length
  · exact h _ (getD_mem cs (0, 0, 0, 0) i hi)
  · rw [List.getD_eq_default cs _ (by omega)]
    refine ⟨⟨le_refl 0, by norm_num⟩, ⟨le_refl 0, by norm_num⟩,
      ⟨le_refl 0, by norm_num⟩, ⟨le_refl 0, by norm_num⟩⟩

lemma kmeansStep_qchan (ps cs : List QRGBA) (hps : ∀ p ∈ ps, qchan255 p)
    (hcs : ∀ c ∈ cs, qchan255 c) : ∀ c ∈ kmeansStep ps cs, qchan255 c := by
  intro c hc
  rw [kmeansStep] at hc
  rw [List.mem_map] at hc
  obtain ⟨i, hi, rfl⟩ := hc
  by_cases hlen : 0 < (ps.filter (fun p => argminIdx (dist4Sq p) cs = i)).length
  · rw [if_pos hlen]
    apply meanQ_qchan
    · intro h0
      rw [h0] at hlen
      simp at hlen
    · intro p hp
      exact hps p (List.mem_of_mem_filter hp)
  · rw [if_neg hlen]
    exact qchan255_getD cs i hcs

lemma kmeansLoop_qchan (ps : List QRGBA) (hps : ∀ p ∈ ps, qchan255 p) :
    ∀ (fuel : ℕ) (cs : List QRGBA), (∀ c ∈ cs, qchan255 c) →
      ∀ cs2, kmeansLoop ps fuel cs = .ok cs2 → ∀ c ∈ cs2, qchan255 c := by
  intro fuel
  induction fuel with
  | zero =>
    intro cs hcs cs2 heq
    rw [kmeansLoop] at heq
    rw [← Except.ok.inj heq]
    exact hcs
  | succ n ih =>
    intro cs hcs cs2 heq
    rw [kmeansLoop] at heq
    by_cases hnil : cs = []
    · rw [if_pos hnil] at heq
      simp at heq
    · rw [if_neg hnil] at heq
      by_cases hconv : maxAbsDiff cs (kmeansStep ps cs) < 1 / 1000
      · rw [if_pos hconv] at heq
        rw [← Except.ok.inj heq]
        exact hcs
      · rw [if_neg hconv] at heq
        exact ih (kmeansStep ps cs) (kmeansStep_qchan ps cs hps hcs) cs2 heq

lemma pyRound_bounds (q : ℚ) (h0 : 0 ≤ q) (h255 : q ≤ 255) :
    0 ≤ pyRound q ∧ pyRound q ≤ 255 := by
  have hfl : (⌊q⌋ : ℚ) ≤ q := Int.floor_le q
  have hfl0 : 0 ≤ ⌊q⌋ := Int.floor_nonneg.mpr h0
  have hfl255 : ⌊q⌋ ≤ 255 := by
    have : (⌊q⌋ : ℚ) ≤ 255 := le_trans hfl h255
    exact_mod_cast this
  have h254 : (1 : ℚ) / 2 ≤ q - ⌊q⌋ → ⌊q⌋ + 1 ≤ 255 := by
    intro hfrac
    by_contra hc
    push_neg at hc
    have h255' : (255 : ℚ) ≤ (⌊q⌋ : ℚ) := by exact_mod_cast (by omega : (255 : ℤ) ≤ ⌊q⌋)
    linarith
  constructor
  · rw [pyRound]
    split_ifs <;> omega
  · rw [pyRound]
    split_ifs with h1 h2 h3
    · exact hfl255
    · exact h254 (by linarith)
    · exact hfl255
    · exact h254 (by linarith)

lemma roundRGBA_chan (c : QRGBA) (h : qchan255 c) : chan255 (roundRGBA c) := by
  obtain ⟨⟨a0, a1⟩, ⟨b0, b1⟩, ⟨c0, c1⟩, ⟨d0, d1⟩⟩ := h
  have ha := pyRound_bounds _ a0 a1
  have hb := pyRound_bounds _ b0 b1
  have hc := pyRound_bounds _ c0 c1
  have hd := pyRound_bounds _ d0 d1
  simp only [roundRGBA, chan255]
  omega

lemma toUint8RGBA_id (p : RGBA) (h : chan255 p) : toUint8RGBA p = p := by
  obtain ⟨h1, h2, h3, h4⟩ := h
  rw [toUint8RGBA, toUint8, toUint8, toUint8, toUint8]
  rw [Nat.mod_eq_of_lt (by omega), Nat.mod_eq_of_lt (by omega),
    Nat.mod_eq_of_lt (by omega), Nat.mod_eq_of_lt (by omega)]

/-- Claim C7 (amended): for every 8-bit image whose unique RGBA color count
exceeds `target_colors ≥ 1`, provided the target does not exceed the number
of collected (possibly sub-sampled) pixels — otherwise the palette seeding
raises, see the counterexample — `optimize_palette` returns an image whose
unique color count is at most `target_colors`, every output pixel being the
full RGBA value of a palette entry whose Euclidean distance over the RGB
channels only is minimal for that pixel. -/
theorem optimize_palette_reduces_colors (samp : ℕ → List RGBA → List RGBA)
    (init : List RGBA → ℕ → List RGBA) (sheet : List RGBA) (t : ℕ)
    (hsampSub : ∀ (n : ℕ) (l : List RGBA), ∀ x ∈ samp n l, x ∈ l)
    (hinitLen : ∀ (l : List RGBA) (k : ℕ), k ≤ l.length → (init l k).length = k)
    (hinitSub : ∀ (l : List RGBA) (k : ℕ), ∀ x ∈ init l k, x ∈ l)
    (h255 : ∀ p ∈ sheet, chan255 p)
    (ht : 1 ≤ t) (hgt : t < uniqueColorCount [sheet])
    (hfeas : t ≤ (samplePixels samp 10000 sheet).length) :
    ∃ pal, create_optimized_palette samp init [sheet] t = .ok pal ∧ pal.length = t ∧
      optimize_sprite_sheet samp init sheet t =
        .ok (sheet.map (fun p => pal.getD (argminIdx (dist3Sq p) pal) (0, 0, 0, 255))) ∧
      uniqueColorCount
          [sheet.map (fun p => pal.getD (argminIdx (dist3Sq p) pal) (0, 0, 0, 255))] ≤ t ∧
      ∀ p : RGBA, pal.getD (argminIdx (dist3Sq p) pal) (0, 0, 0, 255) ∈ pal ∧
        ∀ c ∈ pal, dist3Sq p (pal.getD (argminIdx (dist3Sq p) pal) (0, 0, 0, 255)) ≤
          dist3Sq p c := by
  have hflat : (([sheet] : List (List RGBA)).map (samplePixels samp 10000)).flatten
      = samplePixels samp 10000 sheet := by
    simp
  obtain ⟨cs2, hloop, hkm, hlen⟩ := kmeans_ok samp init [sheet] t ht
    (hinitLen _ t (by rw [hflat]; exact hfeas)) (by rw [hflat]; exact hfeas)
  have hpalne : cs2.map roundRGBA ≠ [] := by
    intro h
    rw [h] at hlen
    simp at hlen
    omega
  have hcreate : create_optimized_palette samp init [sheet] t = .ok (cs2.map roundRGBA) := by
    rw [create_optimized_palette, if_neg (by omega)]
    exact hkm
  have hallsub : ∀ x ∈ (([sheet] : List (List RGBA)).map (samplePixels samp 10000)).flatten,
      x ∈ sheet := by
    rw [hflat, samplePixels]
    intro x hx
    split_ifs at hx with h10
    · exact hsampSub 10000 sheet x hx
    · exact hx
  have hps : ∀ p ∈ ((([sheet] : List (List RGBA)).map (samplePixels samp 10000)).flatten).map toQ,
      qchan255 p := by
    intro p hp
    rw [List.mem_map] at hp
    obtain ⟨x, hx, rfl⟩ := hp
    exact toQ_qchan x (h255 x (hallsub x hx))
  have hcs0 : ∀ c ∈ (init ((([sheet] : List (List RGBA)).map
      (samplePixels samp 10000)).flatten) t).map toQ, qchan255 c := by
    intro c hc
    rw [List.mem_map] at hc
    obtain ⟨x, hx, rfl⟩ := hc
    exact toQ_qchan x (h255 x (hallsub x (hinitSub _ t x hx)))
  have hcs2 := kmeansLoop_qchan _ hps 50 _ hcs0 cs2 hloop
  have hpal255 : ∀ q ∈ cs2.map roundRGBA, chan255 q := by
    intro q hq
    rw [List.mem_map] at hq
    obtain ⟨c, hc, rfl⟩ := hq
    exact roundRGBA_chan c (hcs2 c hc)
  have hmapeq : sheet.map (fun p =>
      toUint8RGBA ((cs2.map roundRGBA).getD
        (argminIdx (dist3Sq p) (cs2.map roundRGBA)) (0, 0, 0, 255))) =
      sheet.map (fun p => (cs2.map roundRGBA).getD
        (argminIdx (dist3Sq p) (cs2.map roundRGBA)) (0, 0, 0, 255)) :=
    List.map_congr_left (fun p _ =>
      toUint8RGBA_id _ (hpal255 _ (argmin_getD_mem _ _ _ hpalne)))
  refine ⟨cs2.map roundRGBA, hcreate, hlen, ?_, ?_, ?_⟩
  · rw [optimize_sprite_sheet, if_neg (by omega), hcreate]
    show apply_palette sheet (cs2.map roundRGBA) = _
    rw [apply_palette_ok sheet _ hpalne, hmapeq]
  · rw [← hmapeq]
    exact le_trans (applied_unique_le sheet _ hpalne) (le_of_eq hlen)
  · intro p
    exact ⟨argmin_getD_mem _ _ _ hpalne,
      fun c hc => argmin_getD_le _ _ _ hpalne c hc⟩

/-- Claim C7 witness: a two-color 8-bit image optimized to one color returns
an image with a single color, each pixel the nearest palette entry. -/
theorem optimize_palette_reduces_colors_witness :
    ∃ pal, create_optimized_palette sampTake initTake
        [[(0, 0, 0, 255), (10, 0, 0, 255)]] 1 = .ok pal ∧ pal.length = 1 ∧
      optimize_sprite_sheet sampTake initTake [(0, 0, 0, 255), (10, 0, 0, 255)] 1 =
        .ok (([(0, 0, 0, 255), (10, 0, 0, 255)] : List RGBA).map
          (fun p => pal.getD (argminIdx (dist3Sq p) pal) (0, 0, 0, 255))) ∧
      uniqueColorCount
          [([(0, 0, 0, 255), (10, 0, 0, 255)] : List RGBA).map
            (fun p => pal.getD (argminIdx (dist3Sq p) pal) (0, 0, 0, 255))] ≤ 1 ∧
      ∀ p : RGBA, pal.getD (argminIdx (dist3Sq p) pal) (0, 0, 0, 255) ∈ pal ∧
        ∀ c ∈ pal, dist3Sq p (pal.getD (argminIdx (dist3Sq p) pal) (0, 0, 0, 255)) ≤
          dist3Sq p c :=
  optimize_palette_reduces_colors sampTake initTake [(0, 0, 0, 255), (10, 0, 0, 255)] 1
    (fun n l x hx => List.take_subset n l hx)
    (by
      intro l k h
      rw [initTake]
      simp
      omega)
    (fun l k x hx => List.take_subset k l hx)
    (by
      intro p hp
      fin_cases hp <;> exact ⟨by decide, by decide, by decide, by decide⟩)
    (by decide) (by decide) (by decide)

lemma bigImage_length : bigImage.length = 12100 := by
  rw [bigImage]
  simp

lemma bigImage_unique : uniqueColorCount [bigImage] = 12100 := by
  have hnodup : bigImage.Nodup := by
    rw [bigImage]
    refine List.Nodup.map ?_ (List.nodup_range 12100)
    intro a b h
    rw [Prod.mk.injEq, Prod.mk.injEq] at h
    omega
  have hflat : ([bigImage] : List (List RGBA)).flatten = bigImage := by
    simp
  rw [uniqueColorCount, hflat, List.Nodup.dedup hnodup, bigImage_length]

lemma optimize_bigImage_raises :
    optimize_sprite_sheet sampTake initTake bigImage 11000 =
      .error "ValueError: Cannot take a larger sample than population when replace is False" := by
  have huniq := bigImage_unique
  have hflat : (([bigImage] : List (List RGBA)).map (samplePixels sampTake 10000)).flatten
      = sampTake 10000 bigImage := by
    rw [show (([bigImage] : List (List RGBA)).map (samplePixels sampTake 10000)).flatten
      = samplePixels sampTake 10000 bigImage from by simp]
    rw [samplePixels, if_pos (by rw [bigImage_length]; omega)]
  have htake : (sampTake 10000 bigImage).length = 10000 := by
    rw [sampTake]
    simp [bigImage_length]
  rw [optimize_sprite_sheet, if_neg (by omega), create_optimized_palette,
    if_neg (by omega)]
  have hkm : kmeans_clustering sampTake initTake [bigImage] 11000 =
      .error "ValueError: Cannot take a larger sample than population when replace is False" := by
    rw [kmeans_clustering]
    simp only [hflat]
    rw [if_neg (by
        intro h
        rw [h] at htake
        simp at htake),
      if_pos (by omega)]
  rw [hkm]

/-- Claim C7 counterexample: a 110x110 image with 12100 distinct colors and
`target_colors = 11000 ≥ 1` has more unique colors than the target, yet
`optimize_palette` returns no image at all: the k-means seeding
(`np.random.choice` over the 10000 sub-sampled pixels) raises `ValueError`,
which escapes the `try` around the clustering loop. -/
theorem optimize_palette_large_target_raises :
    uniqueColorCount [bigImage] = 12100 ∧ (1 : ℕ) ≤ 11000 ∧
    optimize_sprite_sheet sampTake initTake bigImage 11000 =
      .error "ValueError: Cannot take a larger sample than population when replace is False" :=
  ⟨bigImage_unique, by omega, optimize_bigImage_raises⟩

/-- Claim C9 counterexample: for the non-empty 110x110 image with 12100
distinct colors and `target_colors = 11000 ≥ 1`, palette construction raises
to the caller of `optimize_palette` instead of falling back. -/
theorem palette_construction_raises_to_caller :
    bigImage ≠ [] ∧ (1 : ℕ) ≤ 11000 ∧
    (optimize_sprite_sheet sampTake initTake bigImage 11000).isOk = false := by
  refine ⟨?_, by omega, ?_⟩
  · intro h
    have := bigImage_length
    rw [h] at this
    simp at this
  · rw [optimize_bigImage_raises]
    rfl
